import Mathlib

/-!
Shallow embedding of the sentiment-analysis Cloudflare Worker
(`src/index.ts`, the API handler) and of the SQL queries it issues
against the D1 store, together with proofs and refutations of the
specification's claims about it.

Strings are modelled as `List Char`; JSON numbers as `ℚ`; the database
as explicit lists of rows.  Fallible handler stages return `Except`.
-/

namespace SentimentApi

/-! ## Text sanitizer (`cleanText` in the worker) -/

/-- JavaScript whitespace class (the characters matched by `\s` and
removed by `String.prototype.trim`). -/
def isJsSpace (c : Char) : Bool :=
  c = ' ' || c = '\t' || c = '\n' || c.toNat = 11 || c.toNat = 12 || c = '\r' ||
  c.toNat = 0xa0 || c.toNat = 0x1680 || (0x2000 ≤ c.toNat && c.toNat ≤ 0x200a) ||
  c.toNat = 0x2028 || c.toNat = 0x2029 || c.toNat = 0x202f || c.toNat = 0x205f ||
  c.toNat = 0x3000 || c.toNat = 0xfeff

/-- Characters kept by the worker's second regex replacement
`replace(/[^a-zA-Z0-9\s.,!?]/g, '')`: letters, digits, whitespace and
the four punctuation marks. -/
def isAllowedChar (c : Char) : Bool :=
  ('a' ≤ c && c ≤ 'z') || ('A' ≤ c && c ≤ 'Z') || ('0' ≤ c && c ≤ '9') ||
  isJsSpace c || c = '.' || c = ',' || c = '!' || c = '?'

/-- One-pass scanner implementing the worker's first regex replacement
`replace(/<[^>]+>/g, '')`.  The first argument is `none` outside a
potential tag, and `some buf` (reversed characters seen since the
opening `<`) inside one.  A `>` with a non-empty buffer closes and drops
the whole `<...>` match; a `>` right after `<` means no match (`[^>]+`
needs at least one character), so both characters are kept; an unclosed
`<...` at end of input is kept verbatim. -/
def rtAux : Option (List Char) → List Char → List Char
  | none, [] => []
  | none, c :: rest => if c = '<' then rtAux (some []) rest else c :: rtAux none rest
  | some buf, [] => '<' :: buf.reverse
  | some buf, c :: rest =>
    if c = '>' then
      match buf with
      | [] => '<' :: '>' :: rtAux none rest
      | _ :: _ => rtAux none rest
    else rtAux (some (c :: buf)) rest

/-- The worker's first regex replacement `replace(/<[^>]+>/g, '')`:
delete every `<`, followed by at least one non-`>` character, followed
by `>`; characters not part of such a match are kept. -/
def removeTags (l : List Char) : List Char :=
  rtAux none l

/-- `String.prototype.trim`: drop trailing, then leading, JS whitespace. -/
def trimChars (l : List Char) : List Char :=
  ((l.reverse.dropWhile isJsSpace).reverse).dropWhile isJsSpace

/-- The worker's `cleanText`: strip tag sequences, remove disallowed
characters, trim, then truncate to 1000 characters
(`substring(0, 1000)`). -/
def cleanText (l : List Char) : List Char :=
  (trimChars ((removeTags l).filter isAllowedChar)).take 1000

/-! ## Data model: the D1 tables (`schema.sql`) -/

/-- A row of the `movies` table: id, title, year, poster_url. -/
structure Movie where
  id : List Char
  title : List Char
  year : Int
  posterUrl : Option (List Char)
deriving DecidableEq

/-- A row of the `reviews` table: movie_id, review_text, sentiment,
confidence, created_at.  `createdAt` models the `DATETIME` default
`CURRENT_TIMESTAMP` as seconds since the epoch. -/
structure Review where
  movieId : List Char
  text : List Char
  sentiment : List Char
  confidence : ℚ
  createdAt : ℕ
deriving DecidableEq

/-- The D1 database state: the two tables.  `reviews` is kept in
insertion order (ids are the autoincrement positions). -/
structure Db where
  movies : List Movie
  reviews : List Review
deriving DecidableEq

/-- The errors the worker can answer with, tagged by HTTP status. -/
inductive ApiError where
  /-- 400 responses (`Text is required`, `Missing required fields`). -/
  | invalidInput : ApiError
  /-- 404 responses (`Movie not found`). -/
  | notFound : ApiError
  /-- 500 responses: a thrown exception reaching the top-level `catch`
  (`Internal server error`). -/
  | internalError : ApiError
deriving DecidableEq

/-- HTTP status code of each error. -/
def ApiError.status : ApiError → ℕ
  | .invalidInput => 400
  | .notFound => 404
  | .internalError => 500

/-! ## POST /api/reviews (`saveReview`) -/

/-- The parsed JSON body of a POST /api/reviews request.  String fields
are `Option` (absent vs present); `confidence` is a JSON number.  The
handler never reads `confidence` except to bind it into the insert. -/
structure ReviewBody where
  movieId : Option (List Char)
  text : Option (List Char)
  sentiment : Option (List Char)
  confidence : ℚ
deriving DecidableEq

/-- JavaScript truthiness of an optional string: `undefined` and the
empty string are falsy. -/
def truthy : Option (List Char) → Bool
  | none => false
  | some s => !s.isEmpty

/-- The handler's movie lookup `SELECT id FROM movies WHERE id = ?`. -/
def findMovie (db : Db) (mid : List Char) : Option Movie :=
  db.movies.find? (fun m => m.id == mid)

/-- Outcome of a POST /api/reviews request. -/
inductive SaveOutcome where
  /-- 400 `Missing required fields`. -/
  | invalidInput : SaveOutcome
  /-- 404 `Movie not found`. -/
  | notFound : SaveOutcome
  /-- 201, carrying `last_row_id`. -/
  | created : ℕ → SaveOutcome
deriving DecidableEq

/-- POST /api/reviews: reject when `movieId`, `text` or `sentiment` is
falsy; 404 when the movie id does not resolve; otherwise insert the
review with text truncated by `substring(0, 1000)` and the confidence
bound unchanged.  `now` is the timestamp the store assigns. -/
def saveReview (db : Db) (now : ℕ) (b : ReviewBody) : Db × SaveOutcome :=
  if !truthy b.movieId || !truthy b.text || !truthy b.sentiment then
    (db, .invalidInput)
  else
    match b.movieId, b.text, b.sentiment with
    | some mid, some t, some s =>
      match findMovie db mid with
      | none => (db, .notFound)
      | some _ =>
        ({ db with
            reviews := db.reviews ++
              [{ movieId := mid, text := t.take 1000, sentiment := s,
                 confidence := b.confidence, createdAt := now }] },
         .created (db.reviews.length + 1))
    | _, _, _ => (db, .invalidInput)

/-! ## GET /api/movies/:id/sentiment — statistics -/

/-- Round a rational to `d` decimal places: round-half-up via the floor
of `q·10^d + 1/2`, the value JavaScript's `toFixed(d)` denotes on the
non-negative values the claims concern. -/
def roundTo (d : ℕ) (q : ℚ) : ℚ :=
  ((q * 10 ^ d + 1 / 2).floor : ℤ) / 10 ^ d

/-- The reviews of one movie, `WHERE movie_id = ?`. -/
def movieReviews (db : Db) (mid : List Char) : List Review :=
  db.reviews.filter (fun r => r.movieId == mid)

/-- The `stats` object assembled in the sentiment route's response. -/
structure StatsRow where
  totalReviews : ℕ
  positiveCount : ℕ
  negativeCount : ℕ
  positivePercentage : ℚ
  averageConfidence : ℚ
deriving DecidableEq

/-- The sentiment-statistics SQL (COUNT, the two CASE sums, AVG) plus
the response assembly: `toFixed(1)` percentage guarded by the
truthiness of `total_reviews`, `toFixed(3)` average guarded by the
truthiness of `avg_confidence`. -/
def assembleStats (db : Db) (mid : List Char) : StatsRow :=
  let rs := movieReviews db mid
  let total := rs.length
  let pos := (rs.filter (fun r => r.sentiment == "positive".data)).length
  let neg := (rs.filter (fun r => r.sentiment == "negative".data)).length
  { totalReviews := total
    positiveCount := pos
    negativeCount := neg
    positivePercentage :=
      if total = 0 then 0 else roundTo 1 ((pos : ℚ) / (total : ℚ) * 100)
    averageConfidence :=
      if total = 0 then 0
      else
        let avg := (rs.map Review.confidence).sum / (total : ℚ)
        if avg = 0 then 0 else roundTo 3 avg }

/-- `DATE(created_at)`: the calendar-day number of a timestamp. -/
def dayOf (t : ℕ) : ℕ := t / 86400

/-- The rows feeding the trend query: this movie's reviews with
`created_at >= date('now', '-30 days')`, i.e. whose day is at least 30
days before the current day. -/
def windowReviews (db : Db) (mid : List Char) (now : ℕ) : List Review :=
  (movieReviews db mid).filter (fun r => dayOf now - 30 ≤ dayOf r.createdAt)

/-- One element of the `trend` array in the response. -/
structure TrendRow where
  date : ℕ
  positive : ℕ
  negative : ℕ
deriving DecidableEq

/-- Sort day numbers descending (`ORDER BY date DESC`). -/
def sortDescNat (l : List ℕ) : List ℕ :=
  List.insertionSort (fun a b : ℕ => a ≥ b) l

/-- The trend SQL: group the window's reviews by `DATE(created_at)`,
count positives and negatives per group, order by date descending. -/
def trendQuery (db : Db) (mid : List Char) (now : ℕ) : List TrendRow :=
  let rs := windowReviews db mid now
  (sortDescNat ((rs.map (fun r => dayOf r.createdAt)).dedup)).map (fun d =>
    { date := d
      positive := (rs.filter
        (fun r => dayOf r.createdAt == d && r.sentiment == "positive".data)).length
      negative := (rs.filter
        (fun r => dayOf r.createdAt == d && r.sentiment == "negative".data)).length })

/-! ## GET /api/movies — search -/

/-- The `ORDER BY title` relation on movie rows (`BINARY` collation:
lexicographic comparison of the titles). -/
def movieLe (a b : Movie) : Prop := a.title ≤ b.title

instance : DecidableRel movieLe := fun a b => by
  unfold movieLe; infer_instance

instance : IsTotal Movie movieLe := ⟨fun a b => le_total a.title b.title⟩

instance : IsTrans Movie movieLe := ⟨fun _ _ _ h₁ h₂ => le_trans h₁ h₂⟩

/-- SQLite `LIKE` folds ASCII letters: lower-case `A`–`Z`, leave the
rest. -/
def asciiLower (l : List Char) : List Char :=
  l.map (fun c => if 'A' ≤ c && c ≤ 'Z' then Char.ofNat (c.toNat + 32) else c)

/-- Does `hay` start with `needle`? -/
def startsWithL : List Char → List Char → Bool
  | _, [] => true
  | [], _ :: _ => false
  | c :: t, n :: ns => c == n && startsWithL t ns

/-- Does `hay` contain `needle` as a contiguous substring? -/
def containsL : List Char → List Char → Bool
  | [], n => n.isEmpty
  | c :: t, n => startsWithL (c :: t) n || containsL t n

/-- `title LIKE '%' || q || '%'` for a wildcard-free `q`:
ASCII-case-insensitive substring containment. -/
def likeContains (title q : List Char) : Bool :=
  containsL (asciiLower title) (asciiLower q)

/-- Sort catalog rows by title ascending. -/
def sortByTitle (l : List Movie) : List Movie :=
  List.insertionSort movieLe l

/-- GET /api/movies: `url.searchParams.get('q')` is `none` when absent.
A truthy query takes the `WHERE title LIKE ? ORDER BY title LIMIT 20`
branch; an absent (or falsy, i.e. empty) query takes the
`ORDER BY title LIMIT 50` branch.  The response carries the rows and
`count = movies.results.length`. -/
def searchMovies (db : Db) (q : Option (List Char)) : List Movie × ℕ :=
  let results :=
    if truthy q then
      (sortByTitle (db.movies.filter
        (fun m => likeContains m.title (q.getD [])))).take 20
    else
      (sortByTitle db.movies).take 50
  (results, results.length)

/-! ## POST /api/predict (`analyze`) -/

/-- One entry of the Workers AI response array: either field may be
absent. -/
structure AiEntry where
  label : Option (List Char)
  score : Option ℚ
deriving DecidableEq

/-- The successful body of POST /api/predict. -/
structure PredictOk where
  text : List Char
  sentiment : List Char
  confidence : ℚ
  model : List Char
deriving DecidableEq

/-- The handler's use of the AI result: `aiResponse[0].label.toLowerCase()`
and `parseFloat(aiResponse[0].score.toFixed(4))`.  A missing entry,
label or score makes one of those property accesses throw, which the
top-level `catch` turns into a 500; present values of any magnitude are
passed through. -/
def handleAi (origText : List Char) (resp : List AiEntry) : Except ApiError PredictOk :=
  match resp with
  | [] => .error .internalError
  | e :: _ =>
    match e.label, e.score with
    | some lab, some sc =>
      .ok { text := origText, sentiment := asciiLower lab,
            confidence := roundTo 4 sc, model := "distilbert-sst-2".data }
    | _, _ => .error .internalError

/-- POST /api/predict: 400 when `body.text` is falsy or trims to empty;
otherwise run the classifier on `cleanText body.text` and translate its
result with `handleAi`.  The classifier is the external capability,
passed as a function. -/
def predict (classify : List Char → List AiEntry) (body : Option (List Char)) :
    Except ApiError PredictOk :=
  match body with
  | none => .error .invalidInput
  | some t =>
    if (trimChars t).isEmpty then .error .invalidInput
    else handleAi t (classify (cleanText t))

/-! ## Concrete states used to evaluate the claims -/

/-- A catalog with one movie and no reviews. -/
def dbM : Db :=
  { movies := [{ id := "m1".data, title := "T".data, year := 2000, posterUrl := none }],
    reviews := [] }

/-- Scenario C's state: one positive review (confidence 0.9) and one
negative review (confidence 0.8) on the same movie. -/
def dbC : Db :=
  { movies := [{ id := "m1".data, title := "T".data, year := 2000, posterUrl := none }],
    reviews :=
      [{ movieId := "m1".data, text := "good".data, sentiment := "positive".data,
         confidence := 9 / 10, createdAt := 100 },
       { movieId := "m1".data, text := "bad".data, sentiment := "negative".data,
         confidence := 8 / 10, createdAt := 200 }] }

/-- The store reached from `dbM` by one `saveReview` carrying the
sentiment value `neutral`. -/
def dbNeutral : Db :=
  (saveReview dbM 5
    { movieId := some "m1".data, text := some "meh".data,
      sentiment := some "neutral".data, confidence := 1 / 2 }).1

/-- A catalog of 21 one-letter movies, used to exercise the search
limits. -/
def db21 : Db :=
  { movies := (List.range 21).map (fun i =>
      { id := [Char.ofNat (65 + i)], title := [Char.ofNat (65 + i)],
        year := 2000, posterUrl := none }),
    reviews := [] }

/-! ## Helper lemmas -/

theorem trimChars_subset (l : List Char) : trimChars l ⊆ l := by
  intro c hc
  unfold trimChars at hc
  have h1 := (List.dropWhile_sublist _).subset hc
  rw [List.mem_reverse] at h1
  have h2 := (List.dropWhile_sublist _).subset h1
  rw [List.mem_reverse] at h2
  exact h2

theorem cleanText_length (s : List Char) : (cleanText s).length ≤ 1000 := by
  unfold cleanText
  simp only [List.length_take]
  omega

theorem cleanText_allowed (s : List Char) : ∀ c ∈ cleanText s, isAllowedChar c = true := by
  intro c hc
  unfold cleanText at hc
  have h1 : c ∈ trimChars ((removeTags s).filter isAllowedChar) :=
    (List.take_sublist _ _).subset hc
  have h2 := trimChars_subset _ h1
  exact (List.mem_filter.mp h2).2

theorem dropWhile_head_not (p : Char → Bool) (l : List Char) :
    ((l.dropWhile p).take 1).all (fun c => !p c) = true := by
  induction l with
  | nil => rfl
  | cons c t ih =>
    by_cases h : p c
    · simpa [List.dropWhile_cons, h] using ih
    · simp [List.dropWhile_cons, h]

theorem cleanText_head (s : List Char) :
    ((cleanText s).take 1).all (fun c => !isJsSpace c) = true := by
  unfold cleanText trimChars
  rw [List.take_take, show min 1 1000 = 1 from rfl]
  exact dropWhile_head_not _ _

theorem ratFloor_eq_intFloor (q : ℚ) : q.floor = ⌊q⌋ := by
  rw [Rat.floor_def', Rat.floor_def]

theorem ratFloor_intCast_add_half (n : ℤ) : ((n : ℚ) + 1 / 2).floor = n := by
  rw [ratFloor_eq_intFloor, Int.floor_eq_iff]
  constructor
  · norm_num
  · linarith

theorem roundTo_eq (d : ℕ) (q : ℚ) (n : ℤ) (h : q * 10 ^ d = (n : ℚ)) :
    roundTo d q = (n : ℚ) / 10 ^ d := by
  unfold roundTo
  rw [h, ratFloor_intCast_add_half]

theorem stats_scenarioC_percentage :
    (assembleStats dbC "m1".data).positivePercentage = 50 := by
  have h2 : (movieReviews dbC "m1".data).length = 2 := rfl
  have h1 : ((movieReviews dbC "m1".data).filter
      (fun r => r.sentiment == "positive".data)).length = 1 := rfl
  simp only [assembleStats]
  rw [if_neg (by rw [h2]; norm_num), h1, h2]
  rw [show ((1 : ℕ) : ℚ) / ((2 : ℕ) : ℚ) * 100 = 50 by norm_num]
  rw [roundTo_eq 1 50 500 (by norm_num)]
  norm_num

theorem stats_scenarioC_avg :
    (assembleStats dbC "m1".data).averageConfidence = 17 / 20 := by
  have h2 : (movieReviews dbC "m1".data).length = 2 := rfl
  have hmap : (movieReviews dbC "m1".data).map Review.confidence = [9 / 10, 8 / 10] := rfl
  simp only [assembleStats]
  rw [if_neg (by rw [h2]; norm_num), hmap, h2]
  rw [show ([(9 : ℚ) / 10, 8 / 10].sum) = 17 / 10 by
    norm_num [List.sum_cons, List.sum_nil]]
  rw [show ((17 : ℚ) / 10) / ((2 : ℕ) : ℚ) = 17 / 20 by norm_num]
  rw [if_neg (by norm_num)]
  rw [roundTo_eq 3 (17 / 20) 850 (by norm_num)]
  norm_num

/-! ## The claims -/

/-- C6: `cleanText` is total, truncates to at most 1000 characters,
leaves only characters in the allowed set (letters, digits, whitespace,
`.,!?` — in particular no angle brackets survive), strips leading
whitespace, and sends `"<b>Great movie!!!</b>"` to `"Great movie!!!"`. -/
theorem cleanText_spec :
    (∀ s : List Char, (cleanText s).length ≤ 1000 ∧
        (cleanText s).all isAllowedChar = true ∧
        ((cleanText s).take 1).all (fun c => !isJsSpace c) = true) ∧
    cleanText "<b>Great movie!!!</b>".data = "Great movie!!!".data := by
  refine ⟨fun s => ⟨cleanText_length s, ?_, cleanText_head s⟩, by decide⟩
  rw [List.all_eq_true]
  exact fun c hc => cleanText_allowed s c hc

/-- C10: in every GET /api/movies response the `count` field equals the
number of entries of the `movies` array. -/
theorem searchMovies_count_eq_length (db : Db) (q : Option (List Char)) :
    (searchMovies db q).2 = (searchMovies db q).1.length := rfl

/-- C4: `positivePercentage` is `(positiveCount / totalReviews) * 100`
rounded to one decimal place and `0` when there are no reviews;
`averageConfidence` is the mean confidence rounded to three decimal
places and `0` when there are no reviews; on Scenario C's store the two
values are `50.0` and `0.850`. -/
theorem stats_rounding_spec :
    (∀ (db : Db) (mid : List Char), (assembleStats db mid).totalReviews = 0 →
        (assembleStats db mid).positivePercentage = 0 ∧
        (assembleStats db mid).averageConfidence = 0) ∧
    (∀ (db : Db) (mid : List Char), (assembleStats db mid).totalReviews ≠ 0 →
        (assembleStats db mid).positivePercentage =
          roundTo 1 (((assembleStats db mid).positiveCount : ℚ) /
            ((assembleStats db mid).totalReviews : ℚ) * 100) ∧
        (assembleStats db mid).averageConfidence =
          roundTo 3 (((movieReviews db mid).map Review.confidence).sum /
            ((assembleStats db mid).totalReviews : ℚ))) ∧
    (assembleStats dbC "m1".data).positivePercentage = 50 ∧
    (assembleStats dbC "m1".data).averageConfidence = 17 / 20 := by
  refine ⟨?_, ?_, stats_scenarioC_percentage, stats_scenarioC_avg⟩
  · intro db mid h
    simp only [assembleStats] at h ⊢
    rw [if_pos h, if_pos h]
    exact ⟨rfl, rfl⟩
  · intro db mid h
    simp only [assembleStats] at h ⊢
    rw [if_neg h, if_neg h]
    refine ⟨rfl, ?_⟩
    by_cases ha :
        ((movieReviews db mid).map Review.confidence).sum /
          ((movieReviews db mid).length : ℚ) = 0
    · rw [if_pos ha, ha]
      rw [roundTo_eq 3 0 0 (by norm_num)]
      norm_num
    · rw [if_neg ha]

theorem stats_rounding_spec_witness :
    ((assembleStats dbM "m1".data).positivePercentage = 0 ∧
      (assembleStats dbM "m1".data).averageConfidence = 0) ∧
    ((assembleStats dbC "m1".data).positivePercentage =
        roundTo 1 (((assembleStats dbC "m1".data).positiveCount : ℚ) /
          ((assembleStats dbC "m1".data).totalReviews : ℚ) * 100) ∧
      (assembleStats dbC "m1".data).averageConfidence =
        roundTo 3 (((movieReviews dbC "m1".data).map Review.confidence).sum /
          ((assembleStats dbC "m1".data).totalReviews : ℚ))) :=
  ⟨stats_rounding_spec.1 dbM "m1".data (by decide),
   stats_rounding_spec.2.1 dbC "m1".data (by decide)⟩

/-- C1 counterexample: a POST /api/reviews body whose confidence is 2 —
outside [0,1] — passes validation, is inserted, and answers 201; the
stored confidence is 2. -/
theorem saveReview_accepts_bad_confidence :
    (saveReview dbM 0
        { movieId := some "m1".data, text := some "great".data,
          sentiment := some "positive".data, confidence := 2 }).2 = .created 1 ∧
    ((saveReview dbM 0
        { movieId := some "m1".data, text := some "great".data,
          sentiment := some "positive".data, confidence := 2 }).1.reviews.map
      Review.confidence) = [2] ∧
    ¬ ((2 : ℚ) ≤ 1) := by decide

/-- C1 amended: the handler answers 400 exactly when `movieId`, `text`
or `sentiment` is missing or empty, and then leaves the store untouched;
the `confidence` field is never examined, so its value does not affect
the outcome and out-of-range confidences are accepted. -/
theorem saveReview_validation (db : Db) (now : ℕ) (b : ReviewBody) :
    ((saveReview db now b).2 = .invalidInput ↔
      b.movieId.getD [] = [] ∨ b.text.getD [] = [] ∨ b.sentiment.getD [] = []) ∧
    ((saveReview db now b).2 = .invalidInput → (saveReview db now b).1 = db) ∧
    (∀ c : ℚ, (saveReview db now { b with confidence := c }).2 =
      (saveReview db now b).2) := by
  obtain ⟨mi, tx, st, cf⟩ := b
  rcases mi with _ | s1 <;> rcases tx with _ | s2 <;> rcases st with _ | s3 <;>
    try simp [saveReview, truthy]
  by_cases h1 : s1.isEmpty <;> by_cases h2 : s2.isEmpty <;> by_cases h3 : s3.isEmpty <;>
    rw [List.isEmpty_iff] at h1 h2 h3 <;>
    try simp [saveReview, truthy, List.isEmpty_iff, h1, h2, h3]
  cases hf : findMovie db s1 <;>
    simp [saveReview, truthy, List.isEmpty_iff, h1, h2, h3, hf]

theorem saveReview_validation_witness :
    ((saveReview dbM 0
        { movieId := some "m1".data, text := none,
          sentiment := some "positive".data, confidence := 1 / 2 }).2 =
          .invalidInput ↔
      (some "m1".data : Option (List Char)).getD [] = [] ∨
        (none : Option (List Char)).getD [] = [] ∨
        (some "positive".data : Option (List Char)).getD [] = []) ∧
    ((saveReview dbM 0
        { movieId := some "m1".data, text := none,
          sentiment := some "positive".data, confidence := 1 / 2 }).2 =
          .invalidInput →
      (saveReview dbM 0
        { movieId := some "m1".data, text := none,
          sentiment := some "positive".data, confidence := 1 / 2 }).1 = dbM) ∧
    (∀ c : ℚ, (saveReview dbM 0
        { movieId := some "m1".data, text := none,
          sentiment := some "positive".data, confidence := c }).2 =
      (saveReview dbM 0
        { movieId := some "m1".data, text := none,
          sentiment := some "positive".data, confidence := 1 / 2 }).2) :=
  saveReview_validation dbM 0
    { movieId := some "m1".data, text := none,
      sentiment := some "positive".data, confidence := 1 / 2 }

/-- C5 counterexample: the insert stores the submitted text verbatim —
the markup `<b>hi</b>` is persisted although sanitizing it would change
it. -/
theorem saveReview_stores_markup :
    ((saveReview dbM 0
        { movieId := some "m1".data, text := some "<b>hi</b>".data,
          sentiment := some "positive".data, confidence := 9 / 10 }).1.reviews.map
      Review.text) = ["<b>hi</b>".data] ∧
    '<' ∈ "<b>hi</b>".data ∧
    cleanText "<b>hi</b>".data ≠ "<b>hi</b>".data := by decide

/-- C5 amended: every review the insert adds has text equal to the
submitted text truncated by `substring(0, 1000)` — hence at most 1000
characters and non-empty — but the text is not sanitized: whatever
characters the client sent (markup included) are stored. -/
theorem saveReview_text_capped (db : Db) (now : ℕ) (b : ReviewBody) (r : Review)
    (hr : r ∈ (saveReview db now b).1.reviews) :
    r ∈ db.reviews ∨
      ∃ t, b.text = some t ∧ r.text = t.take 1000 ∧
        r.text.length ≤ 1000 ∧ r.text ≠ [] := by
  obtain ⟨mi, tx, st, cf⟩ := b
  rcases mi with _ | s1 <;> rcases tx with _ | s2 <;> rcases st with _ | s3 <;>
    try (simp [saveReview, truthy] at hr; exact Or.inl hr)
  by_cases h1 : s1.isEmpty <;> by_cases h2 : s2.isEmpty <;> by_cases h3 : s3.isEmpty <;>
    try (simp [saveReview, truthy, h1, h2, h3] at hr; exact Or.inl hr)
  rw [Bool.not_eq_true] at h1 h2 h3
  cases hf : findMovie db s1 with
  | none =>
    simp [saveReview, truthy, List.isEmpty_eq_false, h1, h2, h3, hf] at hr
    exact Or.inl hr
  | some mv =>
    simp [saveReview, truthy, h1, h2, h3, hf] at hr
    rcases hr with hr | hr
    · exact Or.inl hr
    · right
      subst hr
      have hs2 : s2 ≠ [] := fun hnil => by rw [hnil] at h2; simp at h2
      refine ⟨s2, rfl, rfl, ?_, ?_⟩
      · simp only [List.length_take]
        omega
      · simp only [ne_eq, List.take_eq_nil_iff]
        push_neg
        exact ⟨by omega, hs2⟩

theorem saveReview_text_capped_witness :
    ({ movieId := "m1".data, text := "<i>x</i>".data, sentiment := "negative".data,
       confidence := 1, createdAt := 0 } : Review) ∈ dbM.reviews ∨
    ∃ t, (some "<i>x</i>".data : Option (List Char)) = some t ∧
      "<i>x</i>".data = t.take 1000 ∧
      ("<i>x</i>".data : List Char).length ≤ 1000 ∧
      "<i>x</i>".data ≠ ([] : List Char) :=
  saveReview_text_capped dbM 0
    { movieId := some "m1".data, text := some "<i>x</i>".data,
      sentiment := some "negative".data, confidence := 1 }
    { movieId := "m1".data, text := "<i>x</i>".data, sentiment := "negative".data,
      confidence := 1, createdAt := 0 }
    (by decide)

/-- C2 counterexample: one `saveReview` call with sentiment `neutral`
reaches a store whose statistics have one review but zero positives and
zero negatives, so `positiveCount + negativeCount ≠ totalReviews`. -/
theorem stats_third_sentiment_breaks_sum :
    (assembleStats dbNeutral "m1".data).totalReviews = 1 ∧
    (assembleStats dbNeutral "m1".data).positiveCount +
      (assembleStats dbNeutral "m1".data).negativeCount = 0 := by decide

theorem count_filter_two (rs : List Review) :
    ((rs.filter (fun r => r.sentiment == "positive".data)).length +
      (rs.filter (fun r => r.sentiment == "negative".data)).length ≤ rs.length) ∧
    ((∀ r ∈ rs, r.sentiment = "positive".data ∨ r.sentiment = "negative".data) →
      (rs.filter (fun r => r.sentiment == "positive".data)).length +
        (rs.filter (fun r => r.sentiment == "negative".data)).length = rs.length) := by
  induction rs with
  | nil => simp
  | cons r rest ih =>
    have hA := ih.1
    by_cases hp : r.sentiment = "positive".data
    · rw [List.filter_cons, List.filter_cons,
        if_pos (show (r.sentiment == "positive".data) = true by rw [hp]; decide),
        if_neg (show ¬ (r.sentiment == "negative".data) = true by rw [hp]; decide),
        List.length_cons, List.length_cons]
      refine ⟨by omega, fun hall => ?_⟩
      have hB := ih.2 (fun x hx => hall x (List.mem_cons_of_mem r hx))
      omega
    · by_cases hn : r.sentiment = "negative".data
      · rw [List.filter_cons, List.filter_cons,
          if_neg (show ¬ (r.sentiment == "positive".data) = true by rw [hn]; decide),
          if_pos (show (r.sentiment == "negative".data) = true by rw [hn]; decide),
          List.length_cons, List.length_cons]
        refine ⟨by omega, fun hall => ?_⟩
        have hB := ih.2 (fun x hx => hall x (List.mem_cons_of_mem r hx))
        omega
      · rw [List.filter_cons, List.filter_cons,
          if_neg (show ¬ (r.sentiment == "positive".data) = true by
            simp only [beq_iff_eq]; exact hp),
          if_neg (show ¬ (r.sentiment == "negative".data) = true by
            simp only [beq_iff_eq]; exact hn),
          List.length_cons]
        refine ⟨by omega, fun hall => ?_⟩
        rcases hall r (List.mem_cons_self r rest) with h | h
        · exact absurd h hp
        · exact absurd h hn

/-- C2 amended: `positiveCount + negativeCount ≤ totalReviews` always
holds, with equality whenever every persisted review of the movie has
sentiment `positive` or `negative`; but `saveReview` does not restrict
the sentiment value, so a third value can be persisted and the equality
can fail. -/
theorem stats_counts_sum (db : Db) (mid : List Char) :
    (assembleStats db mid).positiveCount + (assembleStats db mid).negativeCount ≤
      (assembleStats db mid).totalReviews ∧
    ((∀ r ∈ movieReviews db mid,
        r.sentiment = "positive".data ∨ r.sentiment = "negative".data) →
      (assembleStats db mid).positiveCount + (assembleStats db mid).negativeCount =
        (assembleStats db mid).totalReviews) := by
  simpa only [assembleStats] using count_filter_two (movieReviews db mid)

theorem stats_counts_sum_witness :
    (assembleStats dbC "m1".data).positiveCount +
      (assembleStats dbC "m1".data).negativeCount =
      (assembleStats dbC "m1".data).totalReviews :=
  (stats_counts_sum dbC "m1".data).2 (by decide)

theorem handleAi_ne_invalid (t : List Char) (resp : List AiEntry) :
    handleAi t resp ≠ .error .invalidInput := by
  unfold handleAi
  rcases resp with _ | ⟨⟨lab, sc⟩, rest⟩
  · simp
  · rcases lab with _ | lab <;> rcases sc with _ | sc <;> simp

set_option maxRecDepth 100000 in
/-- C7: POST /api/predict answers 400 (`InvalidInput`) exactly when the
text is missing, empty or all-whitespace; every other input is cleaned
with `cleanText` and handed to the classifier — in particular a text of
5000 `x`s reaches the classifier truncated to 1000 characters. -/
theorem predict_validation_spec :
    (∀ (classify : List Char → List AiEntry) (body : Option (List Char)),
      (predict classify body = .error .invalidInput ↔
        body = none ∨ ∃ t, body = some t ∧ trimChars t = []) ∧
      ∀ t, body = some t → trimChars t ≠ [] →
        predict classify body = handleAi t (classify (cleanText t))) ∧
    cleanText (List.replicate 5000 'x') = List.replicate 1000 'x' := by
  refine ⟨fun classify body => ⟨?_, ?_⟩, by decide⟩
  · rcases body with _ | t
    · simp [predict]
    · by_cases h : (trimChars t).isEmpty = true
      · rw [List.isEmpty_iff] at h
        simp [predict, h]
      · have h' : trimChars t ≠ [] := by
          rw [Bool.not_eq_true, List.isEmpty_eq_false] at h
          exact h
        simp [predict, h', handleAi_ne_invalid t (classify (cleanText t))]
  · intro t hbody htrim
    subst hbody
    have hb : (trimChars t).isEmpty = false := by
      rw [List.isEmpty_eq_false]
      exact htrim
    simp [predict, hb]

theorem predict_validation_spec_witness :
    (predict (fun _ => []) (some "hi x".data) = .error .invalidInput ↔
      (some "hi x".data : Option (List Char)) = none ∨
        ∃ t, (some "hi x".data : Option (List Char)) = some t ∧ trimChars t = []) ∧
    predict (fun _ => []) (some "hi x".data) =
      handleAi "hi x".data ((fun _ => ([] : List AiEntry)) (cleanText "hi x".data)) :=
  ⟨(predict_validation_spec.1 (fun _ => []) (some "hi x".data)).1,
   (predict_validation_spec.1 (fun _ => []) (some "hi x".data)).2 "hi x".data rfl
     (by decide)⟩

/-- C3 counterexample: a classifier entry whose score is 2 — outside
[0,1] — is not rejected: the route answers 200, passing the score
through as the returned confidence. -/
theorem predict_passes_bad_score :
    predict (fun _ => [{ label := some "POSITIVE".data, score := some 2 }])
        (some "good".data) =
      .ok { text := "good".data, sentiment := "positive".data, confidence := 2,
            model := "distilbert-sst-2".data } ∧
    ¬ ((2 : ℚ) ≤ 1) := by
  refine ⟨?_, by norm_num⟩
  have h1 : predict (fun _ => [{ label := some "POSITIVE".data, score := some 2 }])
      (some "good".data) =
      .ok { text := "good".data, sentiment := asciiLower "POSITIVE".data,
            confidence := roundTo 4 2, model := "distilbert-sst-2".data } := rfl
  rw [h1, roundTo_eq 4 2 20000 (by norm_num),
    show asciiLower "POSITIVE".data = "positive".data from by decide]
  norm_num

/-- C3 amended: a malformed classifier result — no entry, or a missing
label or score — makes the route fail with the generic 500 internal
error (a 5xx produced by the thrown property access reaching the
top-level catch), not a dedicated ClassificationUnavailable error; and
when label and score are both present they are never checked: any label
and any score — also one outside [0,1] — are passed through unchanged
(score rounded to 4 decimals, label lower-cased). -/
theorem predict_malformed_ai (t : List Char) (h : trimChars t ≠ []) :
    predict (fun _ => []) (some t) = .error .internalError ∧
    (∀ sc : ℚ, predict (fun _ => [{ label := none, score := some sc }]) (some t) =
      .error .internalError) ∧
    (∀ lab : List Char, predict (fun _ => [{ label := some lab, score := none }])
      (some t) = .error .internalError) ∧
    (∀ (lab : List Char) (sc : ℚ),
      predict (fun _ => [{ label := some lab, score := some sc }]) (some t) =
        .ok { text := t, sentiment := asciiLower lab, confidence := roundTo 4 sc,
              model := "distilbert-sst-2".data }) ∧
    ApiError.internalError.status = 500 := by
  have hb : (trimChars t).isEmpty = false := by
    rw [List.isEmpty_eq_false]
    exact h
  refine ⟨?_, fun sc => ?_, fun lab => ?_, fun lab sc => ?_, rfl⟩ <;>
    simp [predict, handleAi, hb]

theorem predict_malformed_ai_witness :
    predict (fun _ => []) (some "good".data) = .error .internalError ∧
    predict (fun _ => [{ label := some "NEUTRAL".data, score := some 7 }])
        (some "good".data) =
      .ok { text := "good".data, sentiment := asciiLower "NEUTRAL".data,
            confidence := roundTo 4 7, model := "distilbert-sst-2".data } :=
  ⟨(predict_malformed_ai "good".data (by decide)).1,
   (predict_malformed_ai "good".data (by decide)).2.2.2.1 "NEUTRAL".data 7⟩


/-! ## C8: the trend query -/

theorem trend_spec_aux (db : Db) (mid : List Char) (now : ℕ) :
    (trendQuery db mid now).map TrendRow.date =
      sortDescNat (((windowReviews db mid now).map
        (fun r => dayOf r.createdAt)).dedup) := by
  simp only [trendQuery, List.map_map]
  rw [show (TrendRow.date ∘ fun d =>
      ({ date := d,
         positive := ((windowReviews db mid now).filter
           (fun r => dayOf r.createdAt == d && r.sentiment == "positive".data)).length,
         negative := ((windowReviews db mid now).filter
           (fun r => dayOf r.createdAt == d && r.sentiment == "negative".data)).length }
        : TrendRow)) = id from funext fun d => rfl, List.map_id]

/-- C8: the trend series of a movie has one row per calendar date that
carries at least one of the movie's reviews within the trailing 30-day
window (dates with no reviews are omitted), rows are ordered by date
strictly descending (hence no duplicate dates), and each row carries
that date's positive and negative counts. -/
theorem trend_spec (db : Db) (mid : List Char) (now : ℕ) :
    List.Sorted (fun a b : TrendRow => a.date > b.date) (trendQuery db mid now) ∧
    (∀ d : ℕ, d ∈ (trendQuery db mid now).map TrendRow.date ↔
      ∃ r ∈ windowReviews db mid now, dayOf r.createdAt = d) ∧
    (∀ row ∈ trendQuery db mid now,
      row.positive = ((windowReviews db mid now).filter
        (fun r => dayOf r.createdAt == row.date &&
          r.sentiment == "positive".data)).length ∧
      row.negative = ((windowReviews db mid now).filter
        (fun r => dayOf r.createdAt == row.date &&
          r.sentiment == "negative".data)).length) := by
  have hperm : (sortDescNat (((windowReviews db mid now).map
      (fun r => dayOf r.createdAt)).dedup)).Perm
      (((windowReviews db mid now).map (fun r => dayOf r.createdAt)).dedup) :=
    List.perm_insertionSort _ _
  have hsorted : List.Sorted (fun a b : ℕ => a ≥ b)
      (sortDescNat (((windowReviews db mid now).map
        (fun r => dayOf r.createdAt)).dedup)) :=
    List.sorted_insertionSort _ _
  have hnd : (sortDescNat (((windowReviews db mid now).map
      (fun r => dayOf r.createdAt)).dedup)).Nodup :=
    hperm.nodup_iff.mpr (List.nodup_dedup _)
  have hstrict := hsorted.gt_of_ge hnd
  refine ⟨?_, ?_, ?_⟩
  · have : List.Sorted (fun a b : TrendRow => a.date > b.date)
        (((sortDescNat (((windowReviews db mid now).map
          (fun r => dayOf r.createdAt)).dedup))).map (fun d =>
          ({ date := d,
             positive := ((windowReviews db mid now).filter
               (fun r => dayOf r.createdAt == d &&
                 r.sentiment == "positive".data)).length,
             negative := ((windowReviews db mid now).filter
               (fun r => dayOf r.createdAt == d &&
                 r.sentiment == "negative".data)).length } : TrendRow))) := by
      rw [List.Sorted, List.pairwise_map]
      exact hstrict
    simpa only [trendQuery] using this
  · intro d
    rw [trend_spec_aux, hperm.mem_iff, List.mem_dedup, List.mem_map]
  · intro row hrow
    simp only [trendQuery, List.mem_map] at hrow
    obtain ⟨d, _, hd⟩ := hrow
    rw [← hd]
    exact ⟨rfl, rfl⟩

theorem trend_spec_witness :
    (⟨0, 1, 1⟩ : TrendRow).positive = ((windowReviews dbC "m1".data 0).filter
      (fun r => dayOf r.createdAt == (⟨0, 1, 1⟩ : TrendRow).date &&
        r.sentiment == "positive".data)).length ∧
    (⟨0, 1, 1⟩ : TrendRow).negative = ((windowReviews dbC "m1".data 0).filter
      (fun r => dayOf r.createdAt == (⟨0, 1, 1⟩ : TrendRow).date &&
        r.sentiment == "negative".data)).length :=
  (trend_spec dbC "m1".data 0).2.2 ⟨0, 1, 1⟩ (by decide)

/-! ## C9: the search route -/

theorem startsWithL_iff (h n : List Char) :
    startsWithL h n = true ↔ n <+: h := by
  induction n generalizing h with
  | nil => simp [startsWithL]
  | cons c ns ih =>
    cases h with
    | nil => simp [startsWithL]
    | cons x t =>
      rw [show startsWithL (x :: t) (c :: ns) = (x == c && startsWithL t ns)
          from rfl,
        List.cons_prefix_cons, Bool.and_eq_true, beq_iff_eq, ih]
      constructor
      · rintro ⟨h1, h2⟩
        exact ⟨h1.symm, h2⟩
      · rintro ⟨h1, h2⟩
        exact ⟨h1.symm, h2⟩

theorem containsL_iff (h n : List Char) :
    containsL h n = true ↔ n <:+: h := by
  induction h with
  | nil => simp [containsL, List.isEmpty_iff]
  | cons c t ih =>
    simp [containsL, Bool.or_eq_true, startsWithL_iff, ih, List.infix_cons_iff]

/-- C9 counterexample: with a catalog of 21 movies (every title contains
the empty string), the request `GET /api/movies?q=` — query present but
empty — returns 21 entries, exceeding the 20-entry limit the claim
promises for a present query: the falsy check sends the empty query down
the no-query branch with its LIMIT 50. -/
theorem searchMovies_empty_query_over_20 :
    (searchMovies db21 (some [])).1.length = 21 ∧ ¬ (21 ≤ 20) := by
  constructor
  · decide
  · decide

/-- C9 amended: with the query absent or empty (both falsy), the route
returns up to 50 catalog entries ordered by title; with a non-empty
query it returns up to 20 catalog entries whose title contains the query
as a substring under the storage layer's ASCII-case-insensitive LIKE
match, ordered by title; the result is always a (possibly empty) list,
never an error. -/
theorem searchMovies_spec (db : Db) (q : Option (List Char)) :
    ((q = none ∨ q = some []) →
      (searchMovies db q).1.length ≤ 50 ∧
      List.Sorted movieLe (searchMovies db q).1 ∧
      ∀ m ∈ (searchMovies db q).1, m ∈ db.movies) ∧
    (∀ t, q = some t → t ≠ [] →
      (searchMovies db q).1.length ≤ 20 ∧
      List.Sorted movieLe (searchMovies db q).1 ∧
      ∀ m ∈ (searchMovies db q).1, m ∈ db.movies ∧
        asciiLower t <:+: asciiLower m.title) := by
  constructor
  · intro hq
    have hf : truthy q = false := by
      rcases hq with h | h <;> rw [h] <;> rfl
    simp only [searchMovies, hf, Bool.false_eq_true, if_false]
    refine ⟨?_, ?_, ?_⟩
    · simp only [List.length_take]
      omega
    · exact List.Pairwise.sublist (List.take_sublist _ _)
        (List.sorted_insertionSort movieLe db.movies)
    · intro m hm
      exact (List.mem_insertionSort movieLe).mp ((List.take_sublist _ _).subset hm)
  · intro t ht hne
    subst ht
    have hf : truthy (some t) = true := by
      simp [truthy, List.isEmpty_eq_false, hne]
    simp only [searchMovies, hf, if_true, Option.getD_some]
    refine ⟨?_, ?_, ?_⟩
    · simp only [List.length_take]
      omega
    · exact List.Pairwise.sublist (List.take_sublist _ _)
        (List.sorted_insertionSort movieLe _)
    · intro m hm
      have hm2 := (List.mem_insertionSort movieLe).mp ((List.take_sublist _ _).subset hm)
      rw [List.mem_filter] at hm2
      refine ⟨hm2.1, ?_⟩
      have := hm2.2
      rw [likeContains] at this
      exact (containsL_iff _ _).mp this

theorem searchMovies_spec_witness :
    (searchMovies dbM none).1.length ≤ 50 ∧
    ((⟨"m1".data, "T".data, 2000, none⟩ : Movie) ∈ dbM.movies ∧
      asciiLower "t".data <:+: asciiLower ("T".data)) :=
  ⟨((searchMovies_spec dbM none).1 (Or.inl rfl)).1,
   ((searchMovies_spec dbM (some "t".data)).2 "t".data rfl (by decide)).2.2
     ⟨"m1".data, "T".data, 2000, none⟩ (by decide)⟩

end SentimentApi
